import Mathlib

/-!
Verification of the retry wrapper (src/lib/index.ts).

The embedding models the three parts of the source file:
  * `shouldRetryError` — the error classifier (lines 26-31);
  * `calculateDelay` — exponential backoff with optional jitter and cap
    (lines 38-60); the call to `Math.random()` is modelled by an explicit
    rational argument `rand` in `[0, 1)`, consumed only when jitter is on;
  * the attempt loop of the returned async function (lines 79-115),
    modelled by `retryAux` / `retryRun` below.

JavaScript numbers are modelled by `ℚ`.  A thrown JavaScript value is
modelled by `Raised`: either a structured `Error` (with `name` and
`message`) or any other value, represented by its `String(...)` rendering.
The wrapped operation is modelled by a function from the invocation index
(0-based) to the outcome of that invocation, and the per-attempt random
draws by a stream `rng : ℕ → ℚ`.
-/

namespace Retry

/-- A JavaScript `Error` instance: only the fields the source inspects. -/
structure Error where
  name : String
  message : String
deriving DecidableEq

/-- A raised JavaScript value: a structured `Error`, or any other value
rendered by `String(...)`. -/
inductive Raised where
  | err : Error → Raised
  | other : String → Raised
deriving DecidableEq

/-- Line 89: `error instanceof Error ? error : new Error(String(error))`.
`new Error(msg)` has `name = "Error"`. -/
def normalizeError : Raised → Error
  | .err e => e
  | .other s => { name := "Error", message := s }

/-- Lines 26-31 of src/lib/index.ts. -/
def shouldRetryError (error : Error) (allowedErrors : Option (List String)) : Bool :=
  match allowedErrors with
  | none => true
  | some l => if l.length = 0 then true else l.contains error.name

/-- Lines 38-60 of src/lib/index.ts.  `rand` stands for the value of
`Math.random()` drawn at line 50 (consumed only when `jitter` is true). -/
def calculateDelay (baseInterval backoff : ℚ) (attempt : ℕ)
    (maxInterval : Option ℚ) (jitter : Bool) (rand : ℚ) : ℚ :=
  let delayMs := baseInterval * backoff ^ attempt
  let delayMs := if jitter then delayMs * (0.8 + rand * 0.4) else delayMs
  match maxInterval with
  | some m => min delayMs m
  | none => delayMs

/-- The options object (lines 1-8); every field is optional. -/
structure RetryOptions where
  errors : Option (List String) := none
  intervals : Option ℚ := none
  backoff : Option ℚ := none
  maxAttempts : Option ℤ := none
  maxInterval : Option ℚ := none
  jitter : Option Bool := none
deriving DecidableEq

/-- Outcome of one invocation of the wrapped operation: it returns a
value, or it raises. -/
inductive AttemptResult (R : Type) where
  | success : R → AttemptResult R
  | raise : Raised → AttemptResult R
deriving DecidableEq

/-- How the promise returned by the wrapper settles.
`rejectedUndefined` is the `throw lastError!` at line 114 executed while
`lastError` was never assigned: the promise rejects with `undefined`. -/
inductive RetryOutcome (R : Type) where
  | resolved : R → RetryOutcome R
  | rejected : Error → RetryOutcome R
  | rejectedUndefined : RetryOutcome R
deriving DecidableEq

/-- Observable trace of one call of the wrapped function: how it settled,
how many times the operation was invoked, the 0-based attempt indices of
those invocations in order, and the list of computed delays waited. -/
structure RunResult (R : Type) where
  outcome : RetryOutcome R
  invocations : ℕ
  calls : List ℕ
  delays : List ℚ
deriving DecidableEq

/-- The `for` loop of lines 83-111 plus the final `throw` of line 114.
`fuel = maxAttempts - attempt` is the number of loop iterations left;
`last` is the current value of `lastError` (`none` = still unassigned).
Each iteration: invoke the operation (line 85; on success return, line 86),
otherwise normalize (line 89), classify (line 92, throw if non-retryable),
throw if this was the last permitted attempt (line 97), else compute the
delay (line 102), wait, and continue with `attempt + 1`. -/
def retryAux {R : Type} (op : ℕ → AttemptResult R) (errors : Option (List String))
    (intervals backoff : ℚ) (maxInterval : Option ℚ) (jitter : Bool)
    (rng : ℕ → ℚ) : ℕ → ℕ → Option Error → RunResult R
  | _, 0, none => ⟨.rejectedUndefined, 0, [], []⟩
  | _, 0, some e => ⟨.rejected e, 0, [], []⟩
  | attempt, fuel + 1, _ =>
    match op attempt with
    | .success r => ⟨.resolved r, 1, [attempt], []⟩
    | .raise v =>
      let e := normalizeError v
      if shouldRetryError e errors then
        match fuel with
        | 0 => ⟨.rejected e, 1, [attempt], []⟩
        | fuel' + 1 =>
          let d := calculateDelay intervals backoff attempt maxInterval jitter (rng attempt)
          let rest := retryAux op errors intervals backoff maxInterval jitter rng
            (attempt + 1) (fuel' + 1) (some e)
          ⟨rest.outcome, rest.invocations + 1, attempt :: rest.calls, d :: rest.delays⟩
      else ⟨.rejected e, 1, [attempt], []⟩

/-- The returned async function (lines 67-116): option defaults of lines
72-77, then the loop starting at `attempt = 0` with `maxAttempts`
iterations available and `lastError` unassigned.  `maxAttempts` is an
integer; a non-positive value makes the `for` guard `0 < maxAttempts`
fail at once, so the loop body runs `max maxAttempts 0` times. -/
def retryRun {R : Type} (op : ℕ → AttemptResult R) (opts : RetryOptions)
    (rng : ℕ → ℚ) : RunResult R :=
  let errors := opts.errors
  let intervals := opts.intervals.getD 1000
  let backoff := opts.backoff.getD 2
  let maxAttempts := opts.maxAttempts.getD 3
  let maxInterval := opts.maxInterval
  let jitter := opts.jitter.getD false
  retryAux op errors intervals backoff maxInterval jitter rng 0 maxAttempts.toNat none

lemma retryAux_success_eq {R : Type} (op : ℕ → AttemptResult R) (errors : Option (List String))
    (intervals backoff : ℚ) (maxInterval : Option ℚ) (jitter : Bool) (rng : ℕ → ℚ)
    (a n : ℕ) (last : Option Error) (x : R) (hop : op a = .success x) :
    retryAux op errors intervals backoff maxInterval jitter rng a (n + 1) last =
      ⟨.resolved x, 1, [a], []⟩ := by
  simp [retryAux, hop]

lemma retryAux_raise_noretry {R : Type} (op : ℕ → AttemptResult R) (errors : Option (List String))
    (intervals backoff : ℚ) (maxInterval : Option ℚ) (jitter : Bool) (rng : ℕ → ℚ)
    (a n : ℕ) (last : Option Error) (v : Raised) (hop : op a = .raise v)
    (hret : shouldRetryError (normalizeError v) errors = false) :
    retryAux op errors intervals backoff maxInterval jitter rng a (n + 1) last =
      ⟨.rejected (normalizeError v), 1, [a], []⟩ := by
  cases n <;> simp [retryAux, hop, hret]

lemma retryAux_raise_last {R : Type} (op : ℕ → AttemptResult R) (errors : Option (List String))
    (intervals backoff : ℚ) (maxInterval : Option ℚ) (jitter : Bool) (rng : ℕ → ℚ)
    (a : ℕ) (last : Option Error) (v : Raised) (hop : op a = .raise v)
    (hret : shouldRetryError (normalizeError v) errors = true) :
    retryAux op errors intervals backoff maxInterval jitter rng a 1 last =
      ⟨.rejected (normalizeError v), 1, [a], []⟩ := by
  simp [retryAux, hop, hret]

lemma retryAux_raise_step {R : Type} (op : ℕ → AttemptResult R) (errors : Option (List String))
    (intervals backoff : ℚ) (maxInterval : Option ℚ) (jitter : Bool) (rng : ℕ → ℚ)
    (a n : ℕ) (last : Option Error) (v : Raised) (hop : op a = .raise v)
    (hret : shouldRetryError (normalizeError v) errors = true) :
    retryAux op errors intervals backoff maxInterval jitter rng a (n + 2) last =
      ⟨(retryAux op errors intervals backoff maxInterval jitter rng
          (a + 1) (n + 1) (some (normalizeError v))).outcome,
        (retryAux op errors intervals backoff maxInterval jitter rng
          (a + 1) (n + 1) (some (normalizeError v))).invocations + 1,
        a :: (retryAux op errors intervals backoff maxInterval jitter rng
          (a + 1) (n + 1) (some (normalizeError v))).calls,
        calculateDelay intervals backoff a maxInterval jitter (rng a) ::
          (retryAux op errors intervals backoff maxInterval jitter rng
            (a + 1) (n + 1) (some (normalizeError v))).delays⟩ := by
  conv_lhs => rw [retryAux]
  simp only [hop, hret, if_true]

lemma retryAux_all_fail {R : Type} (op : ℕ → AttemptResult R) (errors : Option (List String))
    (intervals backoff : ℚ) (maxInterval : Option ℚ) (jitter : Bool) (rng : ℕ → ℚ)
    (v : ℕ → Raised) :
    ∀ (n a : ℕ) (last : Option Error),
      (∀ i, a ≤ i → i < a + (n + 1) → op i = .raise (v i) ∧
        shouldRetryError (normalizeError (v i)) errors = true) →
      retryAux op errors intervals backoff maxInterval jitter rng a (n + 1) last =
        ⟨.rejected (normalizeError (v (a + n))), n + 1, List.range' a (n + 1),
         (List.range' a n).map
           (fun i => calculateDelay intervals backoff i maxInterval jitter (rng i))⟩ := by
  intro n
  induction n with
  | zero =>
    intro a last h
    obtain ⟨hop, hret⟩ := h a (le_refl a) (by omega)
    rw [retryAux_raise_last op errors intervals backoff maxInterval jitter rng a last _ hop hret]
    simp
  | succ n ih =>
    intro a last h
    obtain ⟨hop, hret⟩ := h a (le_refl a) (by omega)
    rw [retryAux_raise_step op errors intervals backoff maxInterval jitter rng a n last _ hop hret]
    have hrest := ih (a + 1) (some (normalizeError (v a)))
      (fun i h1 h2 => h i (by omega) (by omega))
    rw [hrest]
    have ha : a + 1 + n = a + (n + 1) := by omega
    simp only [ha, List.range'_succ, List.map_cons]

lemma retryAux_success_at {R : Type} (op : ℕ → AttemptResult R) (errors : Option (List String))
    (intervals backoff : ℚ) (maxInterval : Option ℚ) (jitter : Bool) (rng : ℕ → ℚ)
    (v : ℕ → Raised) (x : R) :
    ∀ (k a fuel : ℕ) (last : Option Error), k < fuel →
      (∀ i, a ≤ i → i < a + k → op i = .raise (v i) ∧
        shouldRetryError (normalizeError (v i)) errors = true) →
      op (a + k) = .success x →
      retryAux op errors intervals backoff maxInterval jitter rng a fuel last =
        ⟨.resolved x, k + 1, List.range' a (k + 1),
         (List.range' a k).map
           (fun i => calculateDelay intervals backoff i maxInterval jitter (rng i))⟩ := by
  intro k
  induction k with
  | zero =>
    intro a fuel last hk hfail hsucc
    obtain ⟨m, rfl⟩ : ∃ m, fuel = m + 1 := ⟨fuel - 1, by omega⟩
    rw [Nat.add_zero] at hsucc
    rw [retryAux_success_eq op errors intervals backoff maxInterval jitter rng a m last x hsucc]
    simp
  | succ k ih =>
    intro a fuel last hk hfail hsucc
    obtain ⟨m, rfl⟩ : ∃ m, fuel = m + 2 := ⟨fuel - 2, by omega⟩
    obtain ⟨hop, hret⟩ := hfail a (le_refl a) (by omega)
    rw [retryAux_raise_step op errors intervals backoff maxInterval jitter rng a m last _ hop hret]
    have hrest := ih (a + 1) (m + 1) (some (normalizeError (v a))) (by omega)
      (fun i h1 h2 => hfail i (by omega) (by omega))
      (by rw [show a + 1 + k = a + (k + 1) by omega]; exact hsucc)
    rw [hrest]
    simp only [List.range'_succ, List.map_cons]

lemma retryAux_bounds {R : Type} (op : ℕ → AttemptResult R) (errors : Option (List String))
    (intervals backoff : ℚ) (maxInterval : Option ℚ) (jitter : Bool) (rng : ℕ → ℚ) :
    ∀ (n a : ℕ) (last : Option Error),
      1 ≤ (retryAux op errors intervals backoff maxInterval jitter rng a (n + 1) last).invocations ∧
      (retryAux op errors intervals backoff maxInterval jitter rng a (n + 1) last).invocations ≤ n + 1 ∧
      (retryAux op errors intervals backoff maxInterval jitter rng a (n + 1) last).calls =
        List.range' a (retryAux op errors intervals backoff maxInterval jitter rng a (n + 1) last).invocations ∧
      (retryAux op errors intervals backoff maxInterval jitter rng a (n + 1) last).delays.length + 1 =
        (retryAux op errors intervals backoff maxInterval jitter rng a (n + 1) last).invocations ∧
      ((∃ x, (retryAux op errors intervals backoff maxInterval jitter rng a (n + 1) last).outcome = .resolved x) ∨
       (∃ e, (retryAux op errors intervals backoff maxInterval jitter rng a (n + 1) last).outcome = .rejected e)) := by
  intro n
  induction n with
  | zero =>
    intro a last
    match hop : op a with
    | .success x =>
      rw [retryAux_success_eq op errors intervals backoff maxInterval jitter rng a 0 last x hop]
      exact ⟨Nat.le_refl 1, Nat.le_refl 1, by simp, rfl, Or.inl ⟨x, rfl⟩⟩
    | .raise v =>
      match hret : shouldRetryError (normalizeError v) errors with
      | true =>
        rw [retryAux_raise_last op errors intervals backoff maxInterval jitter rng a last _ hop hret]
        exact ⟨Nat.le_refl 1, Nat.le_refl 1, by simp, rfl, Or.inr ⟨_, rfl⟩⟩
      | false =>
        rw [retryAux_raise_noretry op errors intervals backoff maxInterval jitter rng a 0 last _ hop hret]
        exact ⟨Nat.le_refl 1, Nat.le_refl 1, by simp, rfl, Or.inr ⟨_, rfl⟩⟩
  | succ n ih =>
    intro a last
    match hop : op a with
    | .success x =>
      rw [retryAux_success_eq op errors intervals backoff maxInterval jitter rng a (n + 1) last x hop]
      exact ⟨Nat.le_refl 1, Nat.succ_le_succ (Nat.zero_le (n + 1)), by simp, rfl, Or.inl ⟨x, rfl⟩⟩
    | .raise v =>
      match hret : shouldRetryError (normalizeError v) errors with
      | true =>
        rw [retryAux_raise_step op errors intervals backoff maxInterval jitter rng a n last _ hop hret]
        obtain ⟨h1, h2, h3, h4, h5⟩ := ih (a + 1) (some (normalizeError v))
        refine ⟨Nat.le_add_left 1 _, Nat.succ_le_succ h2, ?_, congrArg (· + 1) h4, h5⟩
        show a :: _ = _
        rw [h3, List.range'_succ]
      | false =>
        rw [retryAux_raise_noretry op errors intervals backoff maxInterval jitter rng a (n + 1) last _ hop hret]
        exact ⟨Nat.le_refl 1, Nat.succ_le_succ (Nat.zero_le (n + 1)), by simp, rfl, Or.inr ⟨_, rfl⟩⟩


/-- C1: for every configuration with effective `maxAttempts ≥ 1` and every
operation, one call of the wrapped function invokes the operation at least
once and at most `maxAttempts` times, the attempt index passed to the
operation increases by exactly 1 per failed retryable attempt (the
invocations happen at attempt indices `0, 1, ..., invocations - 1` in
order), and the loop terminates in a terminal state: resolved or
rejected. -/
theorem retryRun_invariants {R : Type} (op : ℕ → AttemptResult R) (opts : RetryOptions)
    (rng : ℕ → ℚ) (hM : 1 ≤ opts.maxAttempts.getD 3) :
    1 ≤ (retryRun op opts rng).invocations ∧
    ((retryRun op opts rng).invocations : ℤ) ≤ opts.maxAttempts.getD 3 ∧
    (retryRun op opts rng).calls = List.range (retryRun op opts rng).invocations ∧
    ((∃ x, (retryRun op opts rng).outcome = .resolved x) ∨
     (∃ e, (retryRun op opts rng).outcome = .rejected e)) := by
  obtain ⟨n, hn⟩ : ∃ n, (opts.maxAttempts.getD 3).toNat = n + 1 :=
    ⟨(opts.maxAttempts.getD 3).toNat - 1, by omega⟩
  have h := retryAux_bounds op opts.errors (opts.intervals.getD 1000) (opts.backoff.getD 2)
    opts.maxInterval (opts.jitter.getD false) rng n 0 none
  rw [← hn] at h
  obtain ⟨h1, h2, h3, h4, h5⟩ := h
  simp only [retryRun]
  refine ⟨h1, by omega, ?_, h5⟩
  rw [h3, List.range_eq_range']

/-- C2: if the operation fails retryably on its first `k - 1` invocations
and succeeds on invocation `k` (1-indexed, `k ≤ maxAttempts`), the wrapper
resolves with that result after exactly `k` invocations and exactly
`k - 1` delays — no delay follows the successful attempt. -/
theorem retryRun_success_at_k {R : Type} (op : ℕ → AttemptResult R) (opts : RetryOptions)
    (rng : ℕ → ℚ) (v : ℕ → Raised) (x : R) (k : ℕ) (hk1 : 1 ≤ k)
    (hk2 : (k : ℤ) ≤ opts.maxAttempts.getD 3)
    (hfail : ∀ i, i < k - 1 → op i = .raise (v i) ∧
      shouldRetryError (normalizeError (v i)) opts.errors = true)
    (hsucc : op (k - 1) = .success x) :
    (retryRun op opts rng).outcome = .resolved x ∧
    (retryRun op opts rng).invocations = k ∧
    (retryRun op opts rng).delays.length = k - 1 := by
  have h := retryAux_success_at op opts.errors (opts.intervals.getD 1000) (opts.backoff.getD 2)
    opts.maxInterval (opts.jitter.getD false) rng v x (k - 1) 0
    (opts.maxAttempts.getD 3).toNat none (by omega)
    (fun i h1 h2 => hfail i (by omega)) (by simpa using hsucc)
  simp only [retryRun]
  rw [h]
  refine ⟨rfl, ?_, ?_⟩
  · show k - 1 + 1 = k
    omega
  · show ((List.range' 0 (k - 1)).map _).length = k - 1
    simp

/-- C5: if the first raised error's kind is absent from a non-empty
configured `errors` list, the wrapper rejects with that normalized error
after exactly 1 invocation and no delay, regardless of the remaining
attempt budget. -/
theorem retryRun_non_retryable_first {R : Type} (op : ℕ → AttemptResult R)
    (opts : RetryOptions) (rng : ℕ → ℚ) (v : Raised) (l : List String)
    (hM : 1 ≤ opts.maxAttempts.getD 3)
    (hop : op 0 = .raise v)
    (hl : opts.errors = some l) (hne : l ≠ [])
    (hnotin : (normalizeError v).name ∉ l) :
    retryRun op opts rng = ⟨.rejected (normalizeError v), 1, [0], []⟩ := by
  obtain ⟨n, hn⟩ : ∃ n, (opts.maxAttempts.getD 3).toNat = n + 1 :=
    ⟨(opts.maxAttempts.getD 3).toNat - 1, by omega⟩
  have hret : shouldRetryError (normalizeError v) opts.errors = false := by
    rw [hl]
    simp [shouldRetryError, List.length_eq_zero, hne, hnotin]
  simp only [retryRun, hn]
  exact retryAux_raise_noretry op opts.errors _ _ _ _ rng 0 n none v hop hret

/-- C6: if every one of the `maxAttempts` invocations fails with a
retryable error, the wrapper rejects with the most recently observed
normalized error, after exactly `maxAttempts` invocations and exactly
`maxAttempts - 1` delays: no delay computation or wait after the final
permitted attempt. -/
theorem retryRun_exhaustion {R : Type} (op : ℕ → AttemptResult R) (opts : RetryOptions)
    (rng : ℕ → ℚ) (v : ℕ → Raised) (N : ℕ)
    (hN : opts.maxAttempts.getD 3 = (N : ℤ)) (h1 : 1 ≤ N)
    (hfail : ∀ i, i < N → op i = .raise (v i) ∧
      shouldRetryError (normalizeError (v i)) opts.errors = true) :
    (retryRun op opts rng).outcome = .rejected (normalizeError (v (N - 1))) ∧
    (retryRun op opts rng).invocations = N ∧
    (retryRun op opts rng).delays.length = N - 1 := by
  obtain ⟨n, hn⟩ : ∃ n, N = n + 1 := ⟨N - 1, by omega⟩
  have htn : (opts.maxAttempts.getD 3).toNat = n + 1 := by omega
  have h := retryAux_all_fail op opts.errors (opts.intervals.getD 1000) (opts.backoff.getD 2)
    opts.maxInterval (opts.jitter.getD false) rng v n 0 none
    (fun i hi1 hi2 => hfail i (by omega))
  simp only [retryRun, htn]
  rw [h]
  refine ⟨?_, ?_, ?_⟩
  · show RetryOutcome.rejected (normalizeError (v (0 + n))) = _
    rw [Nat.zero_add, show N - 1 = n from by omega]
  · show n + 1 = N
    omega
  · show ((List.range' 0 n).map _).length = N - 1
    simp
    omega

/-- C8: a raised value that is already a structured error passes through
normalization unchanged; any other raised value is coerced to an error
whose message is its textual representation.  Normalization happens before
the error is surfaced (the wrapper rejects with `normalizeError v`) and
before classification (with a 2-attempt budget and an operation that
always raises `v`, the number of invocations is decided by
`shouldRetryError` applied to the normalized error). -/
theorem retryRun_normalization {R : Type} (e : Error) (s : String)
    (op : ℕ → AttemptResult R) (opts : RetryOptions) (rng : ℕ → ℚ) (v : Raised)
    (hop : ∀ n, op n = .raise v) (hM : opts.maxAttempts = some 2) :
    normalizeError (.err e) = e ∧
    normalizeError (.other s) = ⟨"Error", s⟩ ∧
    (retryRun op opts rng).outcome = .rejected (normalizeError v) ∧
    (retryRun op opts rng).invocations =
      (if shouldRetryError (normalizeError v) opts.errors then 2 else 1) := by
  refine ⟨rfl, rfl, ?_⟩
  match hret : shouldRetryError (normalizeError v) opts.errors with
  | true =>
    have h := retryAux_all_fail op opts.errors (opts.intervals.getD 1000) (opts.backoff.getD 2)
      opts.maxInterval (opts.jitter.getD false) rng (fun _ => v) 1 0 none
      (fun i hi1 hi2 => ⟨hop i, hret⟩)
    simp only [retryRun, hM, Option.getD_some]
    rw [show ((2 : ℤ)).toNat = 1 + 1 from rfl]
    rw [h]
    exact ⟨rfl, rfl⟩
  | false =>
    simp only [retryRun, hM, Option.getD_some]
    rw [show ((2 : ℤ)).toNat = 1 + 1 from rfl]
    rw [retryAux_raise_noretry op opts.errors _ _ _ _ rng 0 1 none v (hop 0) hret]
    exact ⟨rfl, rfl⟩

/-- C9: a non-error raised value is normalized to an error of kind
`"Error"`; so under a non-empty `errors` list that does not contain
`"Error"`, a thrown non-error value is classified non-retryable and
surfaced after exactly one invocation, while the same configuration
retries (at least 2 invocations) a structured error of a listed kind. -/
theorem retryRun_non_error_raise {R : Type} (s : String) (l : List String)
    (opts : RetryOptions) (rng : ℕ → ℚ) (op1 op2 : ℕ → AttemptResult R) (n m : String)
    (hl : opts.errors = some l) (hne : l ≠ []) (hnotin : "Error" ∉ l)
    (hM2 : 2 ≤ opts.maxAttempts.getD 3)
    (hop1 : op1 0 = .raise (.other s))
    (hn : n ∈ l) (hop2 : op2 0 = .raise (.err ⟨n, m⟩)) :
    (normalizeError (.other s)).name = "Error" ∧
    retryRun op1 opts rng = ⟨.rejected ⟨"Error", s⟩, 1, [0], []⟩ ∧
    2 ≤ (retryRun op2 opts rng).invocations := by
  obtain ⟨f, hf⟩ : ∃ f, (opts.maxAttempts.getD 3).toNat = f + 2 :=
    ⟨(opts.maxAttempts.getD 3).toNat - 2, by omega⟩
  have hret1 : shouldRetryError (normalizeError (.other s)) opts.errors = false := by
    rw [hl]
    simp [shouldRetryError, normalizeError, List.length_eq_zero, hne, hnotin]
  have hret2 : shouldRetryError (normalizeError (.err ⟨n, m⟩)) opts.errors = true := by
    rw [hl]
    simp only [shouldRetryError, normalizeError]
    rw [if_neg (by simp [List.length_eq_zero, hne])]
    exact List.elem_eq_true_of_mem hn
  refine ⟨rfl, ?_, ?_⟩
  · simp only [retryRun, hf]
    rw [show f + 2 = (f + 1) + 1 from rfl]
    exact retryAux_raise_noretry op1 opts.errors _ _ _ _ rng 0 (f + 1) none _ hop1 hret1
  · simp only [retryRun, hf]
    rw [retryAux_raise_step op2 opts.errors _ _ _ _ rng 0 f none _ hop2 hret2]
    have hb := retryAux_bounds op2 opts.errors (opts.intervals.getD 1000) (opts.backoff.getD 2)
      opts.maxInterval (opts.jitter.getD false) rng f 1 (some (normalizeError (.err ⟨n, m⟩)))
    exact Nat.succ_le_succ hb.1


theorem retryRun_invariants_witness :
    1 ≤ (retryRun (fun _ => AttemptResult.success (0 : ℕ))
        ⟨none, none, none, none, none, none⟩ (fun _ => 0)).invocations ∧
    ((retryRun (fun _ => AttemptResult.success (0 : ℕ))
        ⟨none, none, none, none, none, none⟩ (fun _ => 0)).invocations : ℤ) ≤ 3 ∧
    (retryRun (fun _ => AttemptResult.success (0 : ℕ))
        ⟨none, none, none, none, none, none⟩ (fun _ => 0)).calls =
      List.range (retryRun (fun _ => AttemptResult.success (0 : ℕ))
        ⟨none, none, none, none, none, none⟩ (fun _ => 0)).invocations ∧
    ((∃ x, (retryRun (fun _ => AttemptResult.success (0 : ℕ))
        ⟨none, none, none, none, none, none⟩ (fun _ => 0)).outcome = .resolved x) ∨
     (∃ e, (retryRun (fun _ => AttemptResult.success (0 : ℕ))
        ⟨none, none, none, none, none, none⟩ (fun _ => 0)).outcome = .rejected e)) :=
  retryRun_invariants _ _ _ (by decide)

theorem retryRun_success_at_k_witness :
    (retryRun (fun i => if i < 2 then AttemptResult.raise (Raised.err ⟨"E", "m"⟩)
        else AttemptResult.success ("ok")) ⟨none, none, none, none, none, none⟩
        (fun _ => 0)).outcome = .resolved ("ok") ∧
    (retryRun (fun i => if i < 2 then AttemptResult.raise (Raised.err ⟨"E", "m"⟩)
        else AttemptResult.success ("ok")) ⟨none, none, none, none, none, none⟩
        (fun _ => 0)).invocations = 3 ∧
    (retryRun (fun i => if i < 2 then AttemptResult.raise (Raised.err ⟨"E", "m"⟩)
        else AttemptResult.success ("ok")) ⟨none, none, none, none, none, none⟩
        (fun _ => 0)).delays.length = 3 - 1 :=
  retryRun_success_at_k _ _ _ (fun _ => Raised.err ⟨"E", "m"⟩) ("ok") 3 (by decide)
    (by decide) (by decide) (by decide)

theorem retryRun_non_retryable_first_witness :
    retryRun (fun _ => AttemptResult.raise (Raised.err ⟨"TypeError", "boom"⟩))
      ⟨some ["NetworkError"], none, none, none, none, none⟩ (fun _ => (0 : ℚ)) =
      (⟨.rejected ⟨"TypeError", "boom"⟩, 1, [0], []⟩ : RunResult ℕ) :=
  retryRun_non_retryable_first _ _ _ (Raised.err ⟨"TypeError", "boom"⟩) ["NetworkError"]
    (by decide) rfl rfl (by decide) (by decide)

theorem retryRun_exhaustion_witness :
    (retryRun (fun _ => AttemptResult.raise (Raised.err ⟨"E", "boom"⟩))
        ⟨none, none, none, some 2, none, none⟩ (fun _ => (0 : ℚ)) :
      RunResult ℕ).outcome = .rejected ⟨"E", "boom"⟩ ∧
    (retryRun (fun _ => AttemptResult.raise (Raised.err ⟨"E", "boom"⟩))
        ⟨none, none, none, some 2, none, none⟩ (fun _ => (0 : ℚ)) :
      RunResult ℕ).invocations = 2 ∧
    (retryRun (fun _ => AttemptResult.raise (Raised.err ⟨"E", "boom"⟩))
        ⟨none, none, none, some 2, none, none⟩ (fun _ => (0 : ℚ)) :
      RunResult ℕ).delays.length = 2 - 1 :=
  retryRun_exhaustion _ _ _ (fun _ => Raised.err ⟨"E", "boom"⟩) 2 (by decide) (by decide)
    (by decide)

theorem retryRun_normalization_witness :
    normalizeError (.err ⟨"X", "y"⟩) = ⟨"X", "y"⟩ ∧
    normalizeError (.other ("boom")) = ⟨"Error", "boom"⟩ ∧
    (retryRun (fun _ => AttemptResult.raise (Raised.other ("boom")))
        ⟨none, none, none, some 2, none, none⟩ (fun _ => (0 : ℚ)) :
      RunResult ℕ).outcome = .rejected (normalizeError (.other ("boom"))) ∧
    (retryRun (fun _ => AttemptResult.raise (Raised.other ("boom")))
        ⟨none, none, none, some 2, none, none⟩ (fun _ => (0 : ℚ)) :
      RunResult ℕ).invocations = 2 :=
  retryRun_normalization ⟨"X", "y"⟩ ("boom") _ _ _ (Raised.other ("boom"))
    (fun _ => rfl) rfl

theorem retryRun_non_error_raise_witness :
    (normalizeError (.other ("boom"))).name = "Error" ∧
    retryRun (fun _ => AttemptResult.raise (Raised.other ("boom")))
      ⟨some ["CustomError"], none, none, none, none, none⟩ (fun _ => (0 : ℚ)) =
      (⟨.rejected ⟨"Error", "boom"⟩, 1, [0], []⟩ : RunResult ℕ) ∧
    2 ≤ (retryRun (fun _ => AttemptResult.raise (Raised.err ⟨"CustomError", "x"⟩))
        ⟨some ["CustomError"], none, none, none, none, none⟩ (fun _ => (0 : ℚ)) :
      RunResult ℕ).invocations :=
  retryRun_non_error_raise ("boom") ["CustomError"] _ _ _ _ ("CustomError") ("x")
    rfl (by decide) (by decide) (by decide) rfl (by decide) rfl

/-- C3: with jitter disabled, the delay computed before attempt `i`
(0-indexed, `i ≥ 1`) is `baseInterval * backoffFactor ^ (i - 1)` without a
cap, `min (baseInterval * backoffFactor ^ (i - 1)) maxInterval` with one,
and `baseInterval = 0` yields delay `0` in both cases, for any backoff. -/
theorem calculateDelay_no_jitter (base backoff m r : ℚ) (i : ℕ)
    (hbase : 0 ≤ base) (hback : 1 ≤ backoff) (hm : 0 ≤ m) (hi : 1 ≤ i) :
    calculateDelay base backoff (i - 1) none false r = base * backoff ^ (i - 1) ∧
    calculateDelay base backoff (i - 1) (some m) false r =
      min (base * backoff ^ (i - 1)) m ∧
    (base = 0 → calculateDelay base backoff (i - 1) none false r = 0 ∧
      calculateDelay base backoff (i - 1) (some m) false r = 0) := by
  refine ⟨rfl, rfl, ?_⟩
  intro h0
  subst h0
  simp [calculateDelay, hm]

theorem calculateDelay_no_jitter_witness :
    calculateDelay 100 2 (3 - 1) none false 0 = 100 * 2 ^ (3 - 1) ∧
    calculateDelay 100 2 (3 - 1) (some 250) false 0 = min (100 * 2 ^ (3 - 1)) 250 ∧
    ((100 : ℚ) = 0 → calculateDelay 100 2 (3 - 1) none false 0 = 0 ∧
      calculateDelay 100 2 (3 - 1) (some 250) false 0 = 0) :=
  calculateDelay_no_jitter 100 2 250 0 3 (by norm_num) (by norm_num)
    (by norm_num) (by norm_num)

/-- C7: with jitter enabled the delay is the base formula value multiplied
by the factor `0.8 + rand * 0.4`, which lies in `[0.8, 1.2)` whenever
`rand ∈ [0, 1)`, and the cap is applied after the jitter multiplication:
the capped result is `min (jittered value) maxInterval`. -/
theorem calculateDelay_jitter (base backoff m r : ℚ) (i : ℕ)
    (h0 : 0 ≤ r) (h1 : r < 1) :
    ∃ factor : ℚ, 0.8 ≤ factor ∧ factor < 1.2 ∧
      calculateDelay base backoff i none true r = base * backoff ^ i * factor ∧
      calculateDelay base backoff i (some m) true r =
        min (base * backoff ^ i * factor) m := by
  refine ⟨0.8 + r * 0.4, by nlinarith, by nlinarith, rfl, rfl⟩

theorem calculateDelay_jitter_witness :
    ∃ factor : ℚ, 0.8 ≤ factor ∧ factor < 1.2 ∧
      calculateDelay 1000 2 2 none true (1/2) = 1000 * 2 ^ 2 * factor ∧
      calculateDelay 1000 2 2 (some 3000) true (1/2) =
        min (1000 * 2 ^ 2 * factor) 3000 :=
  calculateDelay_jitter 1000 2 3000 (1/2) 2 (by norm_num) (by norm_num)

/-- C4: the classifier returns true unconditionally when the configured
set is absent or empty; for a non-empty set it returns true exactly when
the error's `name` is a member of the set (exact string membership, no
partial matching).  It is a plain function of its two arguments. -/
theorem shouldRetryError_spec (e : Error) (l : List String) (hne : l ≠ []) :
    shouldRetryError e none = true ∧
    shouldRetryError e (some []) = true ∧
    (shouldRetryError e (some l) = true ↔ e.name ∈ l) := by
  refine ⟨rfl, rfl, ?_⟩
  simp [shouldRetryError, List.length_eq_zero, hne]

theorem shouldRetryError_spec_witness :
    shouldRetryError ⟨"NetworkError", "boom"⟩ none = true ∧
    shouldRetryError ⟨"NetworkError", "boom"⟩ (some []) = true ∧
    (shouldRetryError ⟨"NetworkError", "boom"⟩ (some ["CustomError"]) = true ↔
      "NetworkError" ∈ ["CustomError"]) :=
  shouldRetryError_spec ⟨"NetworkError", "boom"⟩ ["CustomError"] (by decide)

/-- C10: with `maxAttempts ≤ 0` the loop body never runs: the operation is
invoked zero times and the wrapper rejects from the final `throw` of line
114 with the never-assigned `lastError`, i.e. with `undefined` rather than
a normalized error. -/
theorem retryRun_nonpositive_maxAttempts {R : Type} (op : ℕ → AttemptResult R)
    (opts : RetryOptions) (rng : ℕ → ℚ) (M : ℤ)
    (hM : opts.maxAttempts = some M) (hle : M ≤ 0) :
    retryRun op opts rng = ⟨.rejectedUndefined, 0, [], []⟩ := by
  have h0 : M.toNat = 0 := Int.toNat_of_nonpos hle
  simp only [retryRun, hM, Option.getD_some, h0]
  rfl

theorem retryRun_nonpositive_maxAttempts_witness :
    retryRun (fun _ => AttemptResult.success (0 : ℕ))
      ⟨none, none, none, some 0, none, none⟩ (fun _ => 0) =
      ⟨.rejectedUndefined, 0, [], []⟩ :=
  retryRun_nonpositive_maxAttempts _ _ _ 0 rfl (by decide)

end Retry
